import Mathlib

/-!
Verification of the StarHealth form-submission backend.

The repository consists of Netlify handler functions (`submit-form.js` and a
second, unnamed source file) that accept an HTTP form submission, validate the
fields, format an email and hand it to a mail transport.  This file gives a
shallow embedding of that code: JavaScript strings are Lean `String`s
(operated on through their character lists), JavaScript field values are the
`JStr` type (string / `null` / `undefined`), the asynchronous collaborators
(`JSON.parse`, `validator`, `nodemailer`) are parameters or explicitly
documented models, and the handler is a pure function from the environment,
the clock and the event to a response together with the list of mail messages
it attempted to send.
-/

namespace StarHealth

/-- Characters removed by JavaScript `String.prototype.trim` (the ASCII part
of the ECMAScript WhiteSpace and LineTerminator classes). -/
def isJsSpace (c : Char) : Bool :=
  c = ' ' || c = '\t' || c = '\n' || c = '\r' || c = '\x0b' || c = '\x0c'

/-- Model of JavaScript `String.prototype.trim`: drop leading and trailing
whitespace. -/
def jsTrim (s : String) : String :=
  ⟨((s.data.dropWhile isJsSpace).reverse.dropWhile isJsSpace).reverse⟩

/-- A JavaScript value read from a form-submission field: a string, or one of
the two distinct absent values. -/
inductive JStr where
  | undef
  | null
  | str (s : String)
deriving DecidableEq

/-- JavaScript falsiness of a field value (the `!x` test): `undefined`,
`null` and the empty string are falsy. -/
def JStr.falsy : JStr → Bool
  | .undef => true
  | .null => true
  | .str s => s.isEmpty

/-- JavaScript template-literal interpolation of a field value. -/
def JStr.interp : JStr → String
  | .undef => "undefined"
  | .null => "null"
  | .str s => s

/-- Data model `FormSubmission`: the four fields read from the parsed request
body by the handler in `submit-form.js`. -/
structure FormData where
  name : JStr
  email : JStr
  phone : JStr
  needs : JStr
deriving DecidableEq

/-- The two checks that `validateFormData` delegates to the external
`validator` npm package.  The validation logic is parametric in them, since
the package is not repository code. -/
structure Validators where
  isEmail : String → Bool
  isMobilePhone : String → Bool

def nameError : String := "Name is required and must be at least 2 characters"

def emailError : String := "Valid email is required"

def phoneError : String := "Valid phone number is required"

/-- Guard of the first rule of `validateFormData`:
`!data.name || data.name.trim().length < 2`. -/
def nameBad : JStr → Bool
  | .str s => s.isEmpty || decide ((jsTrim s).length < 2)
  | _ => true

/-- Guard of the second rule of `validateFormData`:
`!data.email || !validator.isEmail(data.email)`. -/
def emailBad (v : Validators) : JStr → Bool
  | .str s => s.isEmpty || !(v.isEmail s)
  | _ => true

/-- Guard of the third rule of `validateFormData`:
`!data.phone || !validator.isMobilePhone(data.phone, "any", strictMode:false)`. -/
def phoneBad (v : Validators) : JStr → Bool
  | .str s => s.isEmpty || !(v.isMobilePhone s)
  | _ => true

/-- Embedding of `validateFormData` from `submit-form.js` (lines 32–51): an
error array built by three independent pushes, one per rule, in source
order. -/
def validateFormData (v : Validators) (data : FormData) : List String :=
  (if nameBad data.name then [nameError] else []) ++
  (if emailBad v data.email then [emailError] else []) ++
  (if phoneBad v data.phone then [phoneError] else [])

/-- Model of JavaScript `String.prototype.split` with a non-empty separator,
on character lists.  `skip` counts separator characters still to be consumed
after a match. -/
def jsSplitAux (sep : List Char) : List Char → Nat → List Char → List (List Char)
  | [], _, acc => [acc]
  | _ :: t, Nat.succ k, acc => jsSplitAux sep t k acc
  | c :: t, 0, acc =>
    if sep.isPrefixOf (c :: t) then
      acc :: jsSplitAux sep t (sep.length - 1) []
    else
      jsSplitAux sep t 0 (acc ++ [c])

/-- Model of JavaScript `String.prototype.split` with a string separator. -/
def jsSplit (s sep : String) : List String :=
  if sep.data = [] then s.data.map (fun c => String.mk [c])
  else (jsSplitAux sep.data s.data 0 []).map String.mk

/-- Position of the first occurrence of `sub`, as in JavaScript `indexOf`. -/
def firstOcc (sub : List Char) : List Char → Option Nat
  | [] => if sub.isPrefixOf ([] : List Char) then some 0 else none
  | c :: t => if sub.isPrefixOf (c :: t) then some 0 else (firstOcc sub t).map (· + 1)

/-- Position of the last occurrence of `sub`, as in JavaScript `lastIndexOf`. -/
def lastOcc (sub : List Char) : List Char → Option Nat
  | [] => if sub.isPrefixOf ([] : List Char) then some 0 else none
  | c :: t =>
    match lastOcc sub t with
    | some j => some (j + 1)
    | none => if sub.isPrefixOf (c :: t) then some 0 else none

/-- Model of JavaScript `String.prototype.indexOf` (-1 when absent). -/
def jsIndexOf (s sub : String) : Int :=
  match firstOcc sub.data s.data with
  | some i => (i : Int)
  | none => -1

/-- Model of JavaScript `String.prototype.lastIndexOf` (-1 when absent). -/
def jsLastIndexOf (s sub : String) : Int :=
  match lastOcc sub.data s.data with
  | some i => (i : Int)
  | none => -1

/-- Model of JavaScript `String.prototype.includes`. -/
def jsIncludes (s sub : String) : Bool :=
  (firstOcc sub.data s.data).isSome

/-- Model of JavaScript `String.prototype.substring`: both indices are clamped
to `[0, length]` and swapped if out of order. -/
def jsSubstring (s : String) (a b : Int) : String :=
  let n := s.data.length
  let a' := min (max a 0).toNat n
  let b' := min (max b 0).toNat n
  ⟨(s.data.drop (min a' b')).take (max a' b' - min a' b')⟩

/-- Whether a character list contains two adjacent hyphen-minus characters
(the start of a multipart boundary marker). -/
def hasDD : List Char → Bool
  | [] => false
  | [_] => false
  | a :: c :: t => (a = '-' && c = '-') || hasDD (c :: t)

/-- Models (it is not repository code) the external `validator` npm package's
`isEmail` with default options, restricted to the common unquoted grammar:
`local@domain`, a local part of common atom characters, and a dot-separated
domain whose final label is an alphabetic TLD of length at least 2. -/
def modelIsEmail (s : String) : Bool :=
  match jsSplit s "@" with
  | [lp, dom] =>
    !lp.data.isEmpty &&
    lp.data.all (fun c =>
      c.isAlphanum || c = '.' || c = '_' || c = '%' || c = '+' || c = '-') &&
    (let labels := jsSplit dom "."
     decide (2 ≤ labels.length) &&
     labels.all (fun l => !l.data.isEmpty && l.data.all (fun c => c.isAlphanum || c = '-')) &&
     (match labels.getLast? with
      | some tld => decide (2 ≤ tld.length) && tld.data.all Char.isAlpha
      | none => false))
  | _ => false

/-- Models (it is not repository code) the external `validator` npm package's
`isMobilePhone(s, "any", strictMode:false)` for the separator-free
North-American form: an optional `+1` or `1` prefix followed by ten digits
whose area and exchange codes start with 2–9.  The package's "any" mode
accepts a number when any locale pattern matches; this model keeps the one
pattern the claims exercise. -/
def modelIsMobilePhone (s : String) : Bool :=
  let l := s.data
  let l' := if ['+', '1'].isPrefixOf l then l.drop 2
            else if ['1'].isPrefixOf l then l.drop 1
            else l
  decide (l'.length = 10) && l'.all Char.isDigit &&
  (match l'.head? with | some c => decide ('2' ≤ c) | none => false) &&
  (match l'.get? 3 with | some c => decide ('2' ≤ c) | none => false)

/-- The concrete validator pair used where the source calls the external
`validator` package directly. -/
def validatorLib : Validators :=
  ⟨modelIsEmail, modelIsMobilePhone⟩

/-- Decimal digit characters of `n`, most significant first; `fuel` bounds the
recursion depth. -/
def natDigitsAux : Nat → Nat → List Char
  | 0, _ => []
  | fuel + 1, n =>
    if n = 0 then [] else natDigitsAux fuel (n / 10) ++ [Char.ofNat (48 + n % 10)]

/-- Model of JavaScript `String(n)` on a non-negative integer: its decimal
representation. -/
def jsStringNat (n : Nat) : String :=
  if n = 0 then "0" else ⟨natDigitsAux n n⟩

/-- Model of JavaScript `padStart(2, "0")`. -/
def padStart2 (s : String) : String :=
  if s.length < 2 then ⟨List.replicate (2 - s.length) '0' ++ s.data⟩ else s

/-- The components the source reads off `new Date()`: `getDate`,
`getMonth` (0-based), `getFullYear`, `getHours`, `getMinutes` of the current
local time. -/
structure DateTimeParts where
  getDate : Nat
  getMonth : Nat
  getFullYear : Nat
  getHours : Nat
  getMinutes : Nat

def subjectPrefix : String := "New Form Submission - Insurance Quote Request #"

/-- The `timestamp` template string of `buildEmailSubject`. -/
def buildTimestamp (now : DateTimeParts) : String :=
  padStart2 (jsStringNat now.getDate) ++ padStart2 (jsStringNat (now.getMonth + 1)) ++
  jsStringNat now.getFullYear ++ padStart2 (jsStringNat now.getHours) ++
  padStart2 (jsStringNat now.getMinutes)

/-- Embedding of `buildEmailSubject` from `submit-form.js` (lines 54–64). -/
def buildEmailSubject (now : DateTimeParts) : String :=
  subjectPrefix ++ buildTimestamp now

/-- The `formData.needs || "Not specified"` expression of `buildEmailBody`:
the interpolated needs value when truthy, the default otherwise. -/
def needsOrDefault (x : JStr) : String :=
  if x.falsy then "Not specified" else x.interp

/-- Embedding of `buildEmailBody` from `submit-form.js` (lines 67–79): the
template literal, trimmed. -/
def buildEmailBody (fd : FormData) : String :=
  jsTrim ("\nNew Form Submission Received\n\nDetails:\nName: " ++ fd.name.interp ++
    "\nEmail: " ++ fd.email.interp ++ "\nPhone: " ++ fd.phone.interp ++
    "\nInsurance Needs: " ++ needsOrDefault fd.needs ++
    "\n\nPlease follow up with the customer as needed.\n  ")

/-- Hexadecimal value of a character, for percent-decoding. -/
def hexVal (c : Char) : Option Nat :=
  if '0' ≤ c ∧ c ≤ '9' then some (c.toNat - 48)
  else if 'a' ≤ c ∧ c ≤ 'f' then some (c.toNat - 87)
  else if 'A' ≤ c ∧ c ≤ 'F' then some (c.toNat - 55)
  else none

/-- URL percent-decoding with `+` as space, as applied to `URLSearchParams`
keys and values (multi-byte UTF-8 escapes are decoded bytewise). -/
def uspDecodeAux : List Char → List Char
  | [] => []
  | '+' :: t => ' ' :: uspDecodeAux t
  | '%' :: a :: b :: t =>
    match hexVal a, hexVal b with
    | some x, some y => Char.ofNat (16 * x + y) :: uspDecodeAux t
    | _, _ => '%' :: uspDecodeAux (a :: b :: t)
  | c :: t => c :: uspDecodeAux t

/-- Models (it is not repository code) the `URLSearchParams` builtin used by
the handler's form-encoded path: leading `?` stripped, split on `&`, empty
segments dropped, each segment split at its first `=`, keys and values
percent-decoded. -/
def uspPairs (s : String) : List (String × String) :=
  let body := if s.data.head? = some '?' then s.data.tail else s.data
  ((jsSplit ⟨body⟩ "&").filter (fun seg => !seg.data.isEmpty)).map fun seg =>
    match firstOcc ['='] seg.data with
    | some i => (⟨uspDecodeAux (seg.data.take i)⟩, ⟨uspDecodeAux (seg.data.drop (i + 1))⟩)
    | none => (⟨uspDecodeAux seg.data⟩, "")

/-- Model of `URLSearchParams.prototype.get`: value of the first pair with the
given key, or `null`. -/
def uspGet (s k : String) : Option String :=
  ((uspPairs s).find? (fun p => p.1 == k)).map (·.2)

/-- A `params.get(f)` result is a string or `null`. -/
def optToJStr : Option String → JStr
  | some s => .str s
  | none => .null

/-- The form-encoded parsing branch of the handler: four `params.get` calls on
`new URLSearchParams(event.body)` (an absent body yields no fields). -/
def parseUrlEncoded (body : Option String) : FormData :=
  match body with
  | none => ⟨.null, .null, .null, .null⟩
  | some s => ⟨optToJStr (uspGet s "name"), optToJStr (uspGet s "email"),
               optToJStr (uspGet s "phone"), optToJStr (uspGet s "needs")⟩

/-- The environment variables the handler reads; `none` models an unset
variable. -/
structure Env where
  mailUsername : Option String
  mailPassword : Option String
  emailTo : Option String
  nodeEnv : Option String

/-- JavaScript falsiness of an environment variable (`!process.env.X`):
unset or empty. -/
def envFalsy : Option String → Bool
  | none => true
  | some s => s.isEmpty

/-- The fields of the Netlify event object the handler reads.  `body = none`
models a null/undefined body, `contentType = none` an absent `content-type`
header. -/
structure Event where
  httpMethod : String
  contentType : Option String
  body : Option String

/-- The mail message assembled for `transporter.sendMail`; `fromAddr` and
`toAddr` embed the `from` and `to` keys (Lean keywords). -/
structure MailMessage where
  fromAddr : Option String
  toAddr : String
  subject : String
  text : String
deriving DecidableEq

/-- The JavaScript object handed to `JSON.stringify` when building a response
body (`JSON.stringify` omits keys holding `undefined`, modelled as `none`), or
the empty body of the OPTIONS response. -/
inductive BodyVal where
  | empty
  | obj (status message : String) (errors : Option (List String)) (error : Option String)
deriving DecidableEq

def BodyVal.statusField : BodyVal → Option String
  | .empty => none
  | .obj s _ _ _ => some s

def BodyVal.messageField : BodyVal → Option String
  | .empty => none
  | .obj _ m _ _ => some m

def BodyVal.errorsField : BodyVal → Option (List String)
  | .empty => none
  | .obj _ _ e _ => e

def BodyVal.errorField : BodyVal → Option String
  | .empty => none
  | .obj _ _ _ e => e

/-- The handler's response object. -/
structure Response where
  statusCode : Nat
  headers : List (String × String)
  body : BodyVal
deriving DecidableEq

/-- Headers of every non-OPTIONS response in the source. -/
def stdHeaders : List (String × String) :=
  [("Access-Control-Allow-Origin", "*"), ("Content-Type", "application/json")]

/-- Headers of the OPTIONS (CORS preflight) response. -/
def corsHeaders : List (String × String) :=
  [("Access-Control-Allow-Origin", "*"),
   ("Access-Control-Allow-Methods", "GET, POST, PUT, DELETE, OPTIONS"),
   ("Access-Control-Allow-Headers", "Content-Type, Authorization")]

/-- The test `event.headers["content-type"]?.includes("application/json")`;
an absent header short-circuits to a falsy result. -/
def ctIncludesJson (ev : Event) : Bool :=
  match ev.contentType with
  | some ct => jsIncludes ct "application/json"
  | none => false

/-- The body of the handler's `try` block in `submit-form.js` (lines 119–197)
on a POST request.  `parseJson` stands for the external `JSON.parse` applied
to `event.body` together with the subsequent field reads of the parsed value
(a thrown `SyntaxError` or `TypeError` is the `Except.error` case); `send`
stands for the nodemailer transporter (a thrown transport or construction
error is its `Except.error` case).  The returned list records the messages
handed to `send`; an `Except.error` result is the exception propagated to the
handler's `catch`. -/
def runPost (env : Env) (now : DateTimeParts) (ev : Event) (v : Validators)
    (parseJson : Option String → Except String FormData)
    (send : MailMessage → Except String String) :
    Except String Response × List MailMessage :=
  if envFalsy env.mailUsername || envFalsy env.mailPassword then
    (.error "Missing required environment variables", [])
  else
    match (if ctIncludesJson ev then parseJson ev.body else .ok (parseUrlEncoded ev.body)) with
    | .error e => (.error e, [])
    | .ok formData =>
      let validationErrors := validateFormData v formData
      if validationErrors.length > 0 then
        (.ok ⟨400, stdHeaders, .obj "error" "Validation errors" (some validationErrors) none⟩, [])
      else
        let mailOptions : MailMessage :=
          ⟨env.mailUsername,
           (match env.emailTo with
            | some s => if s.isEmpty then "default@example.com" else s
            | none => "default@example.com"),
           buildEmailSubject now, buildEmailBody formData⟩
        match send mailOptions with
        | .error e => (.error e, [mailOptions])
        | .ok _ =>
          (.ok ⟨200, stdHeaders, .obj "success" "Form submitted successfully!" none none⟩,
           [mailOptions])

/-- Embedding of the exported handler of `submit-form.js` (lines 82–218): the
OPTIONS and non-POST short-circuits, then the `try` body with its `catch`
mapped to the 500 response, whose `error` key carries the caught message when
`NODE_ENV` is `development` and `undefined` otherwise. -/
def handler (env : Env) (now : DateTimeParts) (ev : Event) (v : Validators)
    (parseJson : Option String → Except String FormData)
    (send : MailMessage → Except String String) :
    Response × List MailMessage :=
  if ev.httpMethod = "OPTIONS" then
    (⟨200, corsHeaders, .empty⟩, [])
  else if ev.httpMethod ≠ "POST" then
    (⟨405, stdHeaders, .obj "error" "Method not allowed" none none⟩, [])
  else
    match runPost env now ev v parseJson send with
    | (.ok r, msgs) => (r, msgs)
    | (.error m, msgs) =>
      (⟨500, stdHeaders,
        .obj "error" "Internal server error. Please try again."
          none (if env.nodeEnv = some "development" then some m else none)⟩, msgs)

/-- JavaScript object field assignment `obj[k] = v` on an association list:
overwrite in place when the key exists, append otherwise. -/
def objSet (m : List (String × String)) (k v : String) : List (String × String) :=
  if m.any (fun p => p.1 == k) then m.map (fun p => if p.1 == k then (k, v) else p)
  else m ++ [(k, v)]

/-- JavaScript object field read `obj[k]` (`none` models `undefined`). -/
def objGet (m : List (String × String)) (k : String) : Option String :=
  (m.find? (fun p => p.1 == k)).map (·.2)

/-- The literal head of the pattern `name="([^"]+)"`. -/
def namePat : List Char := ("name=\"").data

/-- First match of the regular expression `name="([^"]+)"`, as used by
`part.match(...)`: scan left to right; where the literal head matches, the
maximal nonempty run of non-quote characters must be closed by a quote, else
scanning resumes at the next position. -/
def regexNameCapture : List Char → Option (List Char)
  | [] => none
  | c :: t =>
    if namePat.isPrefixOf (c :: t) then
      let after := t.drop 5
      let cap := after.takeWhile (fun d => d ≠ '"')
      if cap ≠ [] ∧ (after.drop cap.length).head? = some '"' then some cap
      else regexNameCapture t
    else regexNameCapture t

/-- Loop body of `parseMultipartFormData` (unnamed source file, lines
208–220): one part of the split body updates the accumulated object. -/
def parseMultipartPart (m : List (String × String)) (part : String) :
    List (String × String) :=
  if jsIncludes part "Content-Disposition: form-data" then
    match regexNameCapture part.data with
    | some cap =>
      let valueStart : Int := jsIndexOf part "\r\n\r\n" + 4
      let valueEnd : Int := jsLastIndexOf part "\r\n"
      if valueStart < valueEnd then
        objSet m ⟨cap⟩ (jsTrim (jsSubstring part valueStart valueEnd))
      else m
    | none => m
  else m

/-- Embedding of `parseMultipartFormData` from the unnamed source file
(lines 204–223): split the body on `--boundary` and fold the parts. -/
def parseMultipartFormData (body boundary : String) : List (String × String) :=
  (jsSplit body ("--" ++ boundary)).foldl parseMultipartPart []

/-- A two-part `multipart/form-data` body carrying fields `name` and `email`,
with CRLF line breaks and the given boundary. -/
def multipartTwoPartBody (boundary v1 v2 : String) : String :=
  "--" ++ boundary ++ "\r\nContent-Disposition: form-data; name=\"name\"\r\n\r\n" ++ v1 ++
  "\r\n--" ++ boundary ++ "\r\nContent-Disposition: form-data; name=\"email\"\r\n\r\n" ++ v2 ++
  "\r\n--" ++ boundary ++ "--"

/-- Side condition on a part value for the amended C5: non-empty and free of
hyphen-minus, so the boundary marker cannot occur inside it. -/
def goodValue (v : String) : Prop :=
  v.data ≠ [] ∧ ∀ c ∈ v.data, c ≠ '-'

/-- Side condition on the boundary for the amended C5: non-empty and free of
hyphen-minus and equals signs, so the `--boundary` marker occurs only where
placed and `boundary=` cannot occur inside the boundary itself. -/
def goodBoundary (b : String) : Prop :=
  b.data ≠ [] ∧ ∀ c ∈ b.data, c ≠ '-' ∧ c ≠ '='

/-- The part of the trimmed email-body template that precedes the rendered
needs value. -/
def bodyPrefix (fd : FormData) : String :=
  "New Form Submission Received\n\nDetails:\nName: " ++ fd.name.interp ++
  "\nEmail: " ++ fd.email.interp ++ "\nPhone: " ++ fd.phone.interp ++
  "\nInsurance Needs: "

/-- The part of the trimmed email-body template that follows the rendered
needs value. -/
def bodySuffix : String := "\n\nPlease follow up with the customer as needed."

/-- The interior of the email-body template: what `buildEmailBody` returns
once the template's leading newline and trailing line indentation are trimmed
away. -/
def bodyCore (fd : FormData) : String :=
  bodyPrefix fd ++ needsOrDefault fd.needs ++ bodySuffix

example : modelIsEmail "jo@x.com" = true := by decide
example : modelIsMobilePhone "+15555550123" = true := by decide
example : validateFormData validatorLib ⟨.str "Jo", .str "jo@x.com", .str "+15555550123", .undef⟩ = [] := by decide
example : jsSplit "a--Xb--Xc" "--X" = ["a", "b", "c"] := by decide
example : jsStringNat 2025 = "2025" := by decide
example : padStart2 (jsStringNat 3) = "03" := by decide

theorem string_ext {a b : String} (h : a.data = b.data) : a = b := by
  cases a; cases b; exact congrArg String.mk h

theorem jsTrim_length_le (s : String) : (jsTrim s).length ≤ s.length := by
  have h1 := (List.dropWhile_sublist (l := s.data) isJsSpace).length_le
  have h2 := (List.dropWhile_sublist (l := (s.data.dropWhile isJsSpace).reverse)
    isJsSpace).length_le
  simp only [jsTrim, String.length, List.length_reverse] at *
  omega

theorem nameError_mem_iff (v : Validators) (data : FormData) :
    nameError ∈ validateFormData v data ↔ nameBad data.name = true := by
  unfold validateFormData
  split_ifs <;> simp_all <;> decide

theorem emailError_mem_iff (v : Validators) (data : FormData) :
    emailError ∈ validateFormData v data ↔ emailBad v data.email = true := by
  unfold validateFormData
  split_ifs <;> simp_all <;> decide

theorem phoneError_mem_iff (v : Validators) (data : FormData) :
    phoneError ∈ validateFormData v data ↔ phoneBad v data.phone = true := by
  unfold validateFormData
  split_ifs <;> simp_all <;> decide

/-- C10: for every submission and any validator pair, the validation result
has length at most 3, draws each element from the three fixed error strings,
repeats none of them, and lists them in the fixed name, email, phone order
(it is a sublist of the fixed three-element list). -/
theorem validateFormData_invariants (v : Validators) (data : FormData) :
    (validateFormData v data).length ≤ 3 ∧
    (∀ e ∈ validateFormData v data, e = nameError ∨ e = emailError ∨ e = phoneError) ∧
    (validateFormData v data).Nodup ∧
    (validateFormData v data).Sublist [nameError, emailError, phoneError] := by
  have hsub : (validateFormData v data).Sublist [nameError, emailError, phoneError] := by
    unfold validateFormData
    split_ifs <;> decide
  refine ⟨?_, ?_, ?_, hsub⟩
  · have := hsub.length_le
    simpa using this
  · intro e he
    have := hsub.subset he
    simpa using this
  · exact hsub.nodup (by decide)

/-- C2: the validator evaluates all three rules on every call — each rule's
error is reported exactly when that rule's guard is violated, independently of
the other rules — and on the submission
`(name "Jo", email "jo@x.com", phone "+15555550123")` the error list is
empty. -/
theorem validateFormData_no_short_circuit :
    (∀ (v : Validators) (data : FormData),
      (nameError ∈ validateFormData v data ↔ nameBad data.name = true) ∧
      (emailError ∈ validateFormData v data ↔ emailBad v data.email = true) ∧
      (phoneError ∈ validateFormData v data ↔ phoneBad v data.phone = true)) ∧
    validateFormData validatorLib ⟨.str "Jo", .str "jo@x.com", .str "+15555550123", .undef⟩ = [] := by
  refine ⟨fun v data => ⟨nameError_mem_iff v data, emailError_mem_iff v data,
    phoneError_mem_iff v data⟩, by decide⟩

/-- C3: whenever the name field is missing, or is a string of length below 2,
the name error is among the reported validation errors. -/
theorem name_short_error_included (v : Validators) (data : FormData)
    (h : ∀ s, data.name = JStr.str s → s.length < 2) :
    nameError ∈ validateFormData v data := by
  rw [nameError_mem_iff]
  cases hn : data.name with
  | undef => rfl
  | null => rfl
  | str s =>
    have hlen := h s hn
    have htrim := jsTrim_length_le s
    unfold nameBad
    simp only [Bool.or_eq_true, decide_eq_true_eq]
    right
    omega

/-- Witness for C3 at the one-character name `"J"`. -/
theorem name_short_error_included_witness :
    nameError ∈ validateFormData validatorLib ⟨.str "J", .str "jo@x.com", .str "+15555550123", .undef⟩ :=
  name_short_error_included validatorLib _ (by intro s hs; cases hs; decide)

/-- C1: on a POST processed while either mail credential is unset, the
handler returns the fixed 500 error response and hands no message to the mail
transport — for every body, parser and transport, since the credential check
precedes parsing and validation. -/
theorem creds_missing_500 (env : Env) (now : DateTimeParts) (ev : Event) (v : Validators)
    (p : Option String → Except String FormData) (s : MailMessage → Except String String)
    (hm : ev.httpMethod = "POST")
    (hc : env.mailUsername = none ∨ env.mailPassword = none) :
    (handler env now ev v p s).1.statusCode = 500 ∧
    (handler env now ev v p s).1.body.statusField = some "error" ∧
    (handler env now ev v p s).1.body.messageField =
      some "Internal server error. Please try again." ∧
    (handler env now ev v p s).2 = [] := by
  have hfalsy : (envFalsy env.mailUsername || envFalsy env.mailPassword) = true := by
    rcases hc with h | h <;> simp [h, envFalsy]
  unfold handler runPost
  rw [hm]
  simp [hfalsy, BodyVal.statusField, BodyVal.messageField]

/-- Witness for C1: POST with both credentials unset. -/
theorem creds_missing_500_witness :
    (handler ⟨none, none, none, none⟩ ⟨3, 10, 2025, 14, 7⟩ ⟨"POST", none, none⟩ validatorLib
      (fun _ => .error "boom") (fun _ => .ok "id")).1.statusCode = 500 ∧
    (handler ⟨none, none, none, none⟩ ⟨3, 10, 2025, 14, 7⟩ ⟨"POST", none, none⟩ validatorLib
      (fun _ => .error "boom") (fun _ => .ok "id")).1.body.statusField = some "error" ∧
    (handler ⟨none, none, none, none⟩ ⟨3, 10, 2025, 14, 7⟩ ⟨"POST", none, none⟩ validatorLib
      (fun _ => .error "boom") (fun _ => .ok "id")).1.body.messageField =
      some "Internal server error. Please try again." ∧
    (handler ⟨none, none, none, none⟩ ⟨3, 10, 2025, 14, 7⟩ ⟨"POST", none, none⟩ validatorLib
      (fun _ => .error "boom") (fun _ => .ok "id")).2 = [] :=
  creds_missing_500 _ _ _ _ _ _ rfl (Or.inl rfl)

/-- C4: a POST with JSON content-type whose body the JSON parser rejects is
answered with the fixed 500 error response — the failure is caught at the top
level, not a crash — and no message is handed to the mail transport. -/
theorem parse_error_500 (env : Env) (now : DateTimeParts) (ev : Event) (v : Validators)
    (p : Option String → Except String FormData) (s : MailMessage → Except String String)
    (e : String) (hm : ev.httpMethod = "POST")
    (hct : ev.contentType = some "application/json")
    (hp : p ev.body = .error e) :
    (handler env now ev v p s).1.statusCode = 500 ∧
    (handler env now ev v p s).1.body.statusField = some "error" ∧
    (handler env now ev v p s).1.body.messageField =
      some "Internal server error. Please try again." ∧
    (handler env now ev v p s).2 = [] := by
  have hj : ctIncludesJson ev = true := by
    unfold ctIncludesJson
    rw [hct]
    decide
  unfold handler runPost
  rw [hm]
  by_cases hcred : (envFalsy env.mailUsername || envFalsy env.mailPassword) = true
  · simp [hcred, BodyVal.statusField, BodyVal.messageField]
  · simp [hcred, hj, hp, BodyVal.statusField, BodyVal.messageField]

/-- Witness for C4: POST with JSON content-type and an empty body, on which
the modelled `JSON.parse` fails as it does on the empty string. -/
theorem parse_error_500_witness :
    (handler ⟨some "u", some "pw", none, none⟩ ⟨3, 10, 2025, 14, 7⟩
      ⟨"POST", some "application/json", some ""⟩ validatorLib
      (fun _ => .error "Unexpected end of JSON input") (fun _ => .ok "id")).1.statusCode = 500 ∧
    (handler ⟨some "u", some "pw", none, none⟩ ⟨3, 10, 2025, 14, 7⟩
      ⟨"POST", some "application/json", some ""⟩ validatorLib
      (fun _ => .error "Unexpected end of JSON input") (fun _ => .ok "id")).2 = [] := by
  have h := parse_error_500 ⟨some "u", some "pw", none, none⟩ ⟨3, 10, 2025, 14, 7⟩
    ⟨"POST", some "application/json", some ""⟩ validatorLib
    (fun _ => .error "Unexpected end of JSON input") (fun _ => .ok "id")
    "Unexpected end of JSON input" rfl rfl rfl
  exact ⟨h.1, h.2.2.2⟩

theorem runPost_ok_shape (env : Env) (now : DateTimeParts) (ev : Event) (v : Validators)
    (p : Option String → Except String FormData) (s : MailMessage → Except String String)
    (r : Response) (h : (runPost env now ev v p s).1 = .ok r) :
    r.headers = stdHeaders ∧ (r.statusCode = 200 ∨ r.statusCode = 400) := by
  unfold runPost at h
  simp only [gt_iff_lt] at h
  repeat' split at h
  all_goals (try (simp only [Prod.fst] at h))
  all_goals (try (cases h))
  all_goals simp

/-- C7: every response to a non-OPTIONS request carries both the
`Content-Type: application/json` and `Access-Control-Allow-Origin: *`
headers, and its status code is one of 200, 400, 405, 500. -/
theorem non_options_response_shape (env : Env) (now : DateTimeParts) (ev : Event)
    (v : Validators) (p : Option String → Except String FormData)
    (s : MailMessage → Except String String) (h : ev.httpMethod ≠ "OPTIONS") :
    ("Content-Type", "application/json") ∈ (handler env now ev v p s).1.headers ∧
    ("Access-Control-Allow-Origin", "*") ∈ (handler env now ev v p s).1.headers ∧
    ((handler env now ev v p s).1.statusCode = 200 ∨
     (handler env now ev v p s).1.statusCode = 400 ∨
     (handler env now ev v p s).1.statusCode = 405 ∨
     (handler env now ev v p s).1.statusCode = 500) := by
  unfold handler
  rw [if_neg h]
  by_cases hp : ev.httpMethod = "POST"
  · rw [if_neg (not_not_intro hp)]
    rcases hrp : runPost env now ev v p s with ⟨er, msgs⟩
    cases er with
    | ok r =>
      have hshape := runPost_ok_shape env now ev v p s r (by rw [hrp])
      simp [hshape.1, stdHeaders]
      rcases hshape.2 with h2 | h2 <;> simp [h2]
    | error m => simp [stdHeaders]
  · rw [if_pos hp]
    simp [stdHeaders]

/-- Witness for C7 at a concrete GET request. -/
theorem non_options_response_shape_witness :
    ("Content-Type", "application/json") ∈
      (handler ⟨none, none, none, none⟩ ⟨3, 10, 2025, 14, 7⟩ ⟨"GET", none, none⟩ validatorLib
        (fun _ => .error "boom") (fun _ => .ok "id")).1.headers ∧
    ("Access-Control-Allow-Origin", "*") ∈
      (handler ⟨none, none, none, none⟩ ⟨3, 10, 2025, 14, 7⟩ ⟨"GET", none, none⟩ validatorLib
        (fun _ => .error "boom") (fun _ => .ok "id")).1.headers := by
  have h := non_options_response_shape ⟨none, none, none, none⟩ ⟨3, 10, 2025, 14, 7⟩
    ⟨"GET", none, none⟩ validatorLib (fun _ => .error "boom") (fun _ => .ok "id") (by decide)
  exact ⟨h.1, h.2.1⟩

/-- C8: when a POST fails internally, the 500 body's `error` field carries
the internal detail exactly when `NODE_ENV` is `development`; with the flag
unset, any two failing runs under the same environment produce identical
client-visible responses, whatever their internal error messages. -/
theorem debug_gates_error_detail (env : Env) :
    (∀ (now : DateTimeParts) (ev : Event) (v : Validators)
       (p : Option String → Except String FormData) (s : MailMessage → Except String String)
       (m : String), ev.httpMethod = "POST" → (runPost env now ev v p s).1 = .error m →
       (handler env now ev v p s).1.statusCode = 500 ∧
       ((handler env now ev v p s).1.body.errorField = some m ↔
         env.nodeEnv = some "development")) ∧
    (env.nodeEnv ≠ some "development" →
      ∀ (now : DateTimeParts) (ev : Event) (v : Validators)
        (p : Option String → Except String FormData) (s : MailMessage → Except String String)
        (m : String) (now' : DateTimeParts) (ev' : Event) (v' : Validators)
        (p' : Option String → Except String FormData) (s' : MailMessage → Except String String)
        (m' : String),
        ev.httpMethod = "POST" → ev'.httpMethod = "POST" →
        (runPost env now ev v p s).1 = .error m →
        (runPost env now' ev' v' p' s').1 = .error m' →
        (handler env now ev v p s).1 = (handler env now' ev' v' p' s').1) := by
  have key : ∀ (now : DateTimeParts) (ev : Event) (v : Validators)
      (p : Option String → Except String FormData) (s : MailMessage → Except String String)
      (m : String), ev.httpMethod = "POST" → (runPost env now ev v p s).1 = .error m →
      (handler env now ev v p s).1 =
        ⟨500, stdHeaders, .obj "error" "Internal server error. Please try again."
          none (if env.nodeEnv = some "development" then some m else none)⟩ := by
    intro now ev v p s m hm hr
    unfold handler
    rw [hm, if_neg (by decide : ¬ ("POST" : String) = "OPTIONS"),
      if_neg (not_not_intro rfl)]
    rcases hrp : runPost env now ev v p s with ⟨er, msgs⟩
    rw [hrp] at hr
    simp only at hr
    subst hr
    rfl
  constructor
  · intro now ev v p s m hm hr
    rw [key now ev v p s m hm hr]
    by_cases d : env.nodeEnv = some "development" <;>
      simp [d, BodyVal.errorField]
  · intro hd now ev v p s m now' ev' v' p' s' m' hm hm' hr hr'
    rw [key now ev v p s m hm hr, key now' ev' v' p' s' m' hm' hr']
    simp [if_neg hd]

/-- Witness for C8: two POSTs under a non-debug environment failing with
different internal messages (a parse failure and a missing-credentials
failure) yield identical 500 responses with no `error` field. -/
theorem debug_gates_error_detail_witness :
    ((handler ⟨some "u", some "pw", none, none⟩ ⟨3, 10, 2025, 14, 7⟩
        ⟨"POST", some "application/json", some ""⟩ validatorLib
        (fun _ => .error "Unexpected end of JSON input") (fun _ => .ok "id")).1.statusCode = 500 ∧
     ((handler ⟨some "u", some "pw", none, none⟩ ⟨3, 10, 2025, 14, 7⟩
        ⟨"POST", some "application/json", some ""⟩ validatorLib
        (fun _ => .error "Unexpected end of JSON input") (fun _ => .ok "id")).1.body.errorField =
          some "Unexpected end of JSON input" ↔ (none : Option String) = some "development")) ∧
    (handler ⟨some "u", some "pw", none, none⟩ ⟨3, 10, 2025, 14, 7⟩
        ⟨"POST", some "application/json", some ""⟩ validatorLib
        (fun _ => .error "Unexpected end of JSON input") (fun _ => .ok "id")).1 =
      (handler ⟨some "u", some "pw", none, none⟩ ⟨4, 11, 2026, 9, 30⟩
        ⟨"POST", some "application/json", some "not json"⟩ validatorLib
        (fun _ => .error "Unexpected token") (fun _ => .ok "id")).1 := by
  have h := debug_gates_error_detail ⟨some "u", some "pw", none, none⟩
  refine ⟨h.1 ⟨3, 10, 2025, 14, 7⟩ ⟨"POST", some "application/json", some ""⟩ validatorLib
      (fun _ => .error "Unexpected end of JSON input") (fun _ => .ok "id")
      "Unexpected end of JSON input" rfl rfl, ?_⟩
  exact h.2 (by decide) ⟨3, 10, 2025, 14, 7⟩ ⟨"POST", some "application/json", some ""⟩
    validatorLib (fun _ => .error "Unexpected end of JSON input") (fun _ => .ok "id")
    "Unexpected end of JSON input" ⟨4, 11, 2026, 9, 30⟩
    ⟨"POST", some "application/json", some "not json"⟩ validatorLib
    (fun _ => .error "Unexpected token") (fun _ => .ok "id") "Unexpected token"
    rfl rfl rfl rfl

theorem natDigitsAux_zero (f : Nat) : natDigitsAux f 0 = [] := by
  cases f <;> simp [natDigitsAux]

theorem natDigitsAux_step (f n : Nat) (h : n ≠ 0) :
    natDigitsAux (f + 1) n = natDigitsAux f (n / 10) ++ [Char.ofNat (48 + n % 10)] := by
  simp [natDigitsAux, h]

theorem natDigitsAux_one (f n : Nat) (h1 : 1 ≤ n) (h2 : n ≤ 9) (hf : 1 ≤ f) :
    natDigitsAux f n = [Char.ofNat (48 + n)] := by
  obtain ⟨f', rfl⟩ : ∃ g, f = g + 1 := ⟨f - 1, by omega⟩
  rw [natDigitsAux_step _ _ (by omega), Nat.div_eq_of_lt (by omega), natDigitsAux_zero,
    Nat.mod_eq_of_lt (by omega)]
  simp

theorem natDigitsAux_two (f n : Nat) (h1 : 10 ≤ n) (h2 : n ≤ 99) (hf : 2 ≤ f) :
    natDigitsAux f n = [Char.ofNat (48 + n / 10), Char.ofNat (48 + n % 10)] := by
  obtain ⟨f', rfl⟩ : ∃ g, f = g + 1 := ⟨f - 1, by omega⟩
  rw [natDigitsAux_step _ _ (by omega), natDigitsAux_one f' (n / 10) (by omega) (by omega)
    (by omega)]
  simp

theorem natDigitsAux_three (f n : Nat) (h1 : 100 ≤ n) (h2 : n ≤ 999) (hf : 3 ≤ f) :
    natDigitsAux f n =
      [Char.ofNat (48 + n / 100), Char.ofNat (48 + n / 10 % 10), Char.ofNat (48 + n % 10)] := by
  obtain ⟨f', rfl⟩ : ∃ g, f = g + 1 := ⟨f - 1, by omega⟩
  rw [natDigitsAux_step _ _ (by omega), natDigitsAux_two f' (n / 10) (by omega) (by omega)
    (by omega), Nat.div_div_eq_div_mul]
  simp

theorem natDigitsAux_four (f n : Nat) (h1 : 1000 ≤ n) (h2 : n ≤ 9999) (hf : 4 ≤ f) :
    natDigitsAux f n =
      [Char.ofNat (48 + n / 1000), Char.ofNat (48 + n / 100 % 10),
       Char.ofNat (48 + n / 10 % 10), Char.ofNat (48 + n % 10)] := by
  obtain ⟨f', rfl⟩ : ∃ g, f = g + 1 := ⟨f - 1, by omega⟩
  rw [natDigitsAux_step _ _ (by omega), natDigitsAux_three f' (n / 10) (by omega) (by omega)
    (by omega), Nat.div_div_eq_div_mul, Nat.div_div_eq_div_mul]
  simp

theorem char_ofNat_digit (d : Nat) (h : d ≤ 9) : (Char.ofNat (48 + d)).isDigit = true := by
  interval_cases d <;> decide

theorem jsStringNat_le9 (n : Nat) (h : n ≤ 9) :
    jsStringNat n = ⟨[Char.ofNat (48 + n)]⟩ := by
  rcases Nat.eq_zero_or_pos n with rfl | hpos
  · decide
  · unfold jsStringNat
    rw [if_neg (by omega)]
    rw [natDigitsAux_one n n (by omega) h (by omega)]

theorem jsStringNat_len2 (n : Nat) (h1 : 10 ≤ n) (h2 : n ≤ 99) :
    jsStringNat n = ⟨[Char.ofNat (48 + n / 10), Char.ofNat (48 + n % 10)]⟩ := by
  unfold jsStringNat
  rw [if_neg (by omega)]
  rw [natDigitsAux_two n n h1 h2 (by omega)]

theorem jsStringNat_small (n : Nat) (h : n ≤ 99) :
    1 ≤ (jsStringNat n).length ∧ (jsStringNat n).length ≤ 2 ∧
    (jsStringNat n).data.all Char.isDigit = true := by
  by_cases h9 : n ≤ 9
  · rw [jsStringNat_le9 n h9]
    refine ⟨by simp [String.length], by simp [String.length], ?_⟩
    simp [char_ofNat_digit n h9]
  · rw [jsStringNat_len2 n (by omega) h]
    refine ⟨by simp [String.length], by simp [String.length], ?_⟩
    simp [char_ofNat_digit (n / 10) (by omega), char_ofNat_digit (n % 10) (by omega)]

theorem jsStringNat_year (n : Nat) (h1 : 1000 ≤ n) (h2 : n ≤ 9999) :
    (jsStringNat n).length = 4 ∧ (jsStringNat n).data.all Char.isDigit = true := by
  have h4 : jsStringNat n =
      ⟨[Char.ofNat (48 + n / 1000), Char.ofNat (48 + n / 100 % 10),
        Char.ofNat (48 + n / 10 % 10), Char.ofNat (48 + n % 10)]⟩ := by
    unfold jsStringNat
    rw [if_neg (by omega)]
    rw [natDigitsAux_four n n h1 h2 (by omega)]
  rw [h4]
  refine ⟨by simp [String.length], ?_⟩
  simp [char_ofNat_digit (n / 1000) (by omega), char_ofNat_digit (n / 100 % 10) (by omega),
    char_ofNat_digit (n / 10 % 10) (by omega), char_ofNat_digit (n % 10) (by omega)]

theorem padStart2_two (s : String) (h1 : 1 ≤ s.length) (h2 : s.length ≤ 2)
    (hd : s.data.all Char.isDigit = true) :
    (padStart2 s).length = 2 ∧ (padStart2 s).data.all Char.isDigit = true := by
  unfold padStart2
  split
  · constructor
    · simp only [String.length, List.length_append, List.length_replicate]
      simp only [String.length] at *
      omega
    · simp only [List.all_append, Bool.and_eq_true]
      refine ⟨?_, hd⟩
      simp only [List.all_eq_true]
      intro c hc
      rw [List.eq_of_mem_replicate hc]
      decide
  · exact ⟨by omega, hd⟩

/-- C6: on any valid current local time with a four-digit year, the email
subject is the fixed prefix followed by a separator-free token of exactly 12
digit characters, the concatenation of the two-digit zero-padded day, the
two-digit zero-padded month, the four-digit year, the two-digit zero-padded
hour and the two-digit zero-padded minute. -/
theorem buildEmailSubject_format (now : DateTimeParts)
    (hd1 : 1 ≤ now.getDate) (hd2 : now.getDate ≤ 31)
    (hmo : now.getMonth ≤ 11)
    (hy1 : 1000 ≤ now.getFullYear) (hy2 : now.getFullYear ≤ 9999)
    (hh : now.getHours ≤ 23) (hmi : now.getMinutes ≤ 59) :
    buildEmailSubject now =
      "New Form Submission - Insurance Quote Request #" ++ buildTimestamp now ∧
    buildTimestamp now =
      padStart2 (jsStringNat now.getDate) ++ padStart2 (jsStringNat (now.getMonth + 1)) ++
      jsStringNat now.getFullYear ++ padStart2 (jsStringNat now.getHours) ++
      padStart2 (jsStringNat now.getMinutes) ∧
    (padStart2 (jsStringNat now.getDate)).length = 2 ∧
    (padStart2 (jsStringNat (now.getMonth + 1))).length = 2 ∧
    (jsStringNat now.getFullYear).length = 4 ∧
    (padStart2 (jsStringNat now.getHours)).length = 2 ∧
    (padStart2 (jsStringNat now.getMinutes)).length = 2 ∧
    (buildTimestamp now).length = 12 ∧
    (buildTimestamp now).data.all Char.isDigit = true := by
  obtain ⟨hD1, hD2, hD3⟩ := jsStringNat_small now.getDate (by omega)
  obtain ⟨hM1, hM2, hM3⟩ := jsStringNat_small (now.getMonth + 1) (by omega)
  obtain ⟨hY1, hY2⟩ := jsStringNat_year now.getFullYear hy1 hy2
  obtain ⟨hH1, hH2, hH3⟩ := jsStringNat_small now.getHours (by omega)
  obtain ⟨hMi1, hMi2, hMi3⟩ := jsStringNat_small now.getMinutes (by omega)
  obtain ⟨pD1, pD2⟩ := padStart2_two _ hD1 hD2 hD3
  obtain ⟨pM1, pM2⟩ := padStart2_two _ hM1 hM2 hM3
  obtain ⟨pH1, pH2⟩ := padStart2_two _ hH1 hH2 hH3
  obtain ⟨pMi1, pMi2⟩ := padStart2_two _ hMi1 hMi2 hMi3
  refine ⟨rfl, rfl, pD1, pM1, hY1, pH1, pMi1, ?_, ?_⟩
  · simp only [buildTimestamp, String.length, String.data_append, List.length_append]
    simp only [String.length] at pD1 pM1 hY1 pH1 pMi1
    omega
  · simp only [buildTimestamp, String.data_append, List.all_append, Bool.and_eq_true]
    exact ⟨⟨⟨⟨pD2, pM2⟩, hY2⟩, pH2⟩, pMi2⟩

/-- Witness for C6 at the local time 2025-11-03 14:07. -/
theorem buildEmailSubject_format_witness :
    buildEmailSubject ⟨3, 10, 2025, 14, 7⟩ =
      "New Form Submission - Insurance Quote Request #" ++ buildTimestamp ⟨3, 10, 2025, 14, 7⟩ ∧
    (buildTimestamp ⟨3, 10, 2025, 14, 7⟩).length = 12 ∧
    (buildTimestamp ⟨3, 10, 2025, 14, 7⟩).data.all Char.isDigit = true := by
  have h := buildEmailSubject_format ⟨3, 10, 2025, 14, 7⟩ (by decide) (by decide) (by decide)
    (by decide) (by decide) (by decide) (by decide)
  exact ⟨h.1, h.2.2.2.2.2.2.2.1, h.2.2.2.2.2.2.2.2⟩

theorem dropWhile_append_left (p : Char → Bool) (x y : List Char)
    (h : List.dropWhile p x ≠ []) :
    List.dropWhile p (x ++ y) = List.dropWhile p x ++ y := by
  rw [List.dropWhile_append, if_neg (by simpa [List.isEmpty_iff] using h)]

theorem jsTrim_wrap (front mid back : List Char)
    (hf : List.dropWhile isJsSpace front ≠ [])
    (hb : List.dropWhile isJsSpace back.reverse ≠ []) :
    jsTrim ⟨front ++ (mid ++ back)⟩ =
      ⟨List.dropWhile isJsSpace front ++
        (mid ++ (List.dropWhile isJsSpace back.reverse).reverse)⟩ := by
  unfold jsTrim
  apply congrArg String.mk
  show ((((front ++ (mid ++ back)).dropWhile isJsSpace).reverse.dropWhile isJsSpace).reverse) = _
  rw [dropWhile_append_left _ _ _ hf]
  rw [show (List.dropWhile isJsSpace front ++ (mid ++ back)).reverse =
    back.reverse ++ (mid.reverse ++ (List.dropWhile isJsSpace front).reverse) by simp]
  rw [dropWhile_append_left _ _ _ hb]
  simp

theorem buildEmailBody_eq (fd : FormData) : buildEmailBody fd = bodyCore fd := by
  have hfront : List.dropWhile isJsSpace
      ("\nNew Form Submission Received\n\nDetails:\nName: " : String).data =
      ("New Form Submission Received\n\nDetails:\nName: " : String).data := by decide
  have hback : List.dropWhile isJsSpace
      ("\n\nPlease follow up with the customer as needed.\n  " : String).data.reverse =
      ("\n\nPlease follow up with the customer as needed." : String).data.reverse := by decide
  have hconv : buildEmailBody fd = jsTrim
      ⟨("\nNew Form Submission Received\n\nDetails:\nName: " : String).data ++
        ((fd.name.interp.data ++ (("\nEmail: " : String).data ++ (fd.email.interp.data ++
          (("\nPhone: " : String).data ++ (fd.phone.interp.data ++
          (("\nInsurance Needs: " : String).data ++ (needsOrDefault fd.needs).data)))))) ++
        ("\n\nPlease follow up with the customer as needed.\n  " : String).data)⟩ := by
    unfold buildEmailBody
    apply congrArg jsTrim
    apply string_ext
    simp [String.data_append, List.append_assoc]
  rw [hconv, jsTrim_wrap _ _ _ (by rw [hfront]; decide) (by rw [hback]; decide)]
  rw [hfront, hback, List.reverse_reverse]
  apply string_ext
  simp [bodyCore, bodyPrefix, bodySuffix, String.data_append, List.append_assoc]

theorem needsOrDefault_falsy (x : JStr) (hx : x.falsy = true) :
    needsOrDefault x = "Not specified" := by
  unfold needsOrDefault
  rw [if_pos hx]

theorem needsOrDefault_str (s : String) (hs : s ≠ "") :
    needsOrDefault (JStr.str s) = s := by
  unfold needsOrDefault
  rw [if_neg]
  · rfl
  · simpa [JStr.falsy, String.isEmpty_iff] using hs

/-- C9: a needs field that is present but falsy (the empty string, like any
falsy value) renders exactly as if it were absent — the built body is
identical — while a non-empty needs string appears verbatim between the fixed
body prefix and suffix. -/
theorem needs_falsy_default :
    (∀ (fd : FormData) (x : JStr), x.falsy = true →
       buildEmailBody { fd with needs := x } = buildEmailBody { fd with needs := .undef }) ∧
    (∀ (fd : FormData) (s : String), s ≠ "" →
       buildEmailBody { fd with needs := .str s } = bodyPrefix fd ++ s ++ bodySuffix) := by
  constructor
  · intro fd x hx
    rw [buildEmailBody_eq, buildEmailBody_eq]
    unfold bodyCore
    simp [needsOrDefault_falsy x hx, needsOrDefault_falsy JStr.undef rfl, bodyPrefix]
  · intro fd s hs
    rw [buildEmailBody_eq]
    unfold bodyCore
    simp [needsOrDefault_str s hs, bodyPrefix]

/-- Witness for C9: the empty-string needs field produces the same body as an
absent one, and a concrete non-empty needs value appears verbatim. -/
theorem needs_falsy_default_witness :
    buildEmailBody ⟨.str "Jo", .str "jo@x.com", .str "+15555550123", .str ""⟩ =
      buildEmailBody ⟨.str "Jo", .str "jo@x.com", .str "+15555550123", .undef⟩ ∧
    buildEmailBody ⟨.str "Jo", .str "jo@x.com", .str "+15555550123", .str "Life cover"⟩ =
      bodyPrefix ⟨.str "Jo", .str "jo@x.com", .str "+15555550123", .str "Life cover"⟩ ++
        "Life cover" ++ bodySuffix := by
  constructor
  · exact needs_falsy_default.1 ⟨.str "Jo", .str "jo@x.com", .str "+15555550123", .undef⟩
      (.str "") rfl
  · exact needs_falsy_default.2 ⟨.str "Jo", .str "jo@x.com", .str "+15555550123", .str "Life cover"⟩
      "Life cover" (by decide)

theorem isPrefixOf_length_le {sub l : List Char} (h : sub.isPrefixOf l = true) :
    sub.length ≤ l.length :=
  (List.isPrefixOf_iff_prefix.mp h).length_le

theorem isPrefixOf_append_left_iff (sub x z : List Char) (h : sub.length ≤ x.length) :
    sub.isPrefixOf (x ++ z) = true ↔ sub.isPrefixOf x = true := by
  rw [List.isPrefixOf_iff_prefix, List.isPrefixOf_iff_prefix, List.prefix_iff_eq_take,
    List.prefix_iff_eq_take, List.take_append_of_le_length h]

theorem isPrefixOf_two_dash (rest l : List Char)
    (h : (('-') :: ('-') :: rest).isPrefixOf l = true) :
    l[0]? = some '-' ∧ l[1]? = some '-' := by
  match l with
  | [] => simp [List.isPrefixOf] at h
  | [a] => simp [List.isPrefixOf] at h
  | a :: c :: t =>
    simp only [List.isPrefixOf, Bool.and_eq_true, beq_iff_eq] at h
    obtain ⟨ha, hc, _⟩ := h
    simp [← ha, ← hc]

theorem not_dd_of_hasDD_false : ∀ (x : List Char), hasDD x = false →
    ∀ i, ¬ (x[i]? = some '-' ∧ x[i + 1]? = some '-')
  | [], _, i => by simp
  | [a], _, i => by
    rintro ⟨h1, h2⟩
    rcases i with _ | i <;> simp at h1 h2
  | a :: c :: t, h, i => by
    simp only [hasDD, Bool.or_eq_false_iff, Bool.and_eq_false_iff] at h
    rcases i with _ | i
    · rintro ⟨h1, h2⟩
      simp at h1 h2
      rcases h.1 with hbad | hbad <;> simp [h1, h2] at hbad
    · have := not_dd_of_hasDD_false (c :: t) h.2 i
      simpa using this

theorem hasDD_no_dash (l : List Char) (h : ∀ c ∈ l, c ≠ '-') : hasDD l = false := by
  induction l with
  | nil => rfl
  | cons a t ih =>
    cases t with
    | nil => rfl
    | cons b t2 =>
      have ha := h a (by simp)
      have ht : hasDD (b :: t2) = false := ih (fun c hc => h c (by simp [hc]))
      simp [hasDD, ha, ht]

theorem hasDD_append (x y : List Char) (hx : hasDD x = false) (hy : hasDD y = false)
    (hj : x.getLast? = some '-' → y.head? ≠ some '-') : hasDD (x ++ y) = false := by
  induction x with
  | nil => simpa using hy
  | cons a x2 ih =>
    cases x2 with
    | nil =>
      cases y with
      | nil => rfl
      | cons b y2 =>
        have hb : ¬ (a = '-' ∧ b = '-') := by
          rintro ⟨rfl, rfl⟩
          exact hj rfl rfl
        simp only [List.cons_append, List.nil_append, hasDD, Bool.or_eq_false_iff,
          Bool.and_eq_false_iff]
        constructor
        · by_cases ha : a = '-'
          · right; simp; intro hb2; exact hb ⟨ha, hb2⟩
          · left; simp [ha]
        · exact hy
    | cons b x3 =>
      have hx2 : hasDD (b :: x3) = false := by
        simp only [hasDD, Bool.or_eq_false_iff] at hx
        exact hx.2
      have hab : (a = '-' && b = '-') = false := by
        simp only [hasDD, Bool.or_eq_false_iff] at hx
        exact hx.1
      have ih2 := ih hx2 (by
        intro hl
        exact hj (by simpa using hl))
      simp only [List.cons_append, hasDD] at ih2 ⊢
      simp [hab, ih2]

theorem no_sep_occurrence (bd x s2 : List Char) (hx : hasDD x = false)
    (hlast : x.getLast? ≠ some '-') :
    ∀ i, i < x.length → ¬ (('-') :: ('-') :: bd).isPrefixOf ((x ++ s2).drop i) = true := by
  intro i hi h
  obtain ⟨h0, h1⟩ := isPrefixOf_two_dash _ _ h
  rw [List.getElem?_drop] at h0 h1
  rcases Nat.lt_or_ge (i + 1) x.length with hlt | hge
  · have e0 : (x ++ s2)[i + 0]? = x[i + 0]? := List.getElem?_append_left (by omega)
    have e1 : (x ++ s2)[i + 1]? = x[i + 1]? := List.getElem?_append_left hlt
    refine not_dd_of_hasDD_false x hx i ⟨?_, ?_⟩
    · have := e0.symm.trans h0
      simpa using this
    · exact e1.symm.trans h1
  · have hieq : i = x.length - 1 := by omega
    have e0 : (x ++ s2)[i + 0]? = x[i + 0]? := List.getElem?_append_left (by omega)
    apply hlast
    rw [List.getLast?_eq_getElem?]
    rw [← hieq]
    rw [show x[i]? = x[i + 0]? by norm_num, ← e0]
    simpa using h0


theorem jsSplitAux_skip (sep x r acc : List Char) :
    jsSplitAux sep (x ++ r) x.length acc = jsSplitAux sep r 0 acc := by
  induction x with
  | nil => rfl
  | cons c x2 ih => simpa [jsSplitAux] using ih

theorem jsSplitAux_match (sep r acc : List Char) (hsep : sep ≠ []) :
    jsSplitAux sep (sep ++ r) 0 acc = acc :: jsSplitAux sep r 0 [] := by
  obtain ⟨c, s2, rfl⟩ : ∃ c s2, sep = c :: s2 := by
    cases sep with
    | nil => exact absurd rfl hsep
    | cons c s2 => exact ⟨c, s2, rfl⟩
  have hpre : (c :: s2).isPrefixOf ((c :: s2) ++ r) = true :=
    List.isPrefixOf_iff_prefix.mpr (List.prefix_append _ _)
  show jsSplitAux (c :: s2) (c :: (s2 ++ r)) 0 acc = _
  simp only [jsSplitAux]
  rw [if_pos (by simpa using hpre)]
  have := jsSplitAux_skip (c :: s2) s2 r []
  simp only [List.length_cons, Nat.add_sub_cancel] at *
  rw [this]

theorem jsSplitAux_nomatch (sep : List Char) (c : Char) (t acc : List Char)
    (h : ¬ sep.isPrefixOf (c :: t) = true) :
    jsSplitAux sep (c :: t) 0 acc = jsSplitAux sep t 0 (acc ++ [c]) := by
  simp only [jsSplitAux]
  rw [if_neg (by simpa using h)]

theorem jsSplitAux_chunk (sep : List Char) (hsep : sep ≠ []) :
    ∀ (a r acc : List Char),
    (∀ i, i < a.length → ¬ sep.isPrefixOf ((a ++ (sep ++ r)).drop i) = true) →
    jsSplitAux sep (a ++ (sep ++ r)) 0 acc = (acc ++ a) :: jsSplitAux sep r 0 []
  | [], r, acc, _ => by simpa using jsSplitAux_match sep r acc hsep
  | c :: a2, r, acc, hno => by
    have h0 : ¬ sep.isPrefixOf (c :: (a2 ++ (sep ++ r))) = true := by
      have := hno 0 (by simp)
      simpa using this
    rw [List.cons_append, jsSplitAux_nomatch sep c _ acc h0,
      jsSplitAux_chunk sep hsep a2 r (acc ++ [c]) (fun i hi => by
        have := hno (i + 1) (by simpa using Nat.succ_lt_succ hi)
        simpa using this)]
    simp

theorem jsSplitAux_final (sep : List Char) (hsep : sep ≠ []) :
    ∀ (a acc : List Char),
    (∀ i, ¬ sep.isPrefixOf (a.drop i) = true) →
    jsSplitAux sep a 0 acc = [acc ++ a]
  | [], acc, _ => by simp [jsSplitAux]
  | c :: a2, acc, hno => by
    rw [jsSplitAux_nomatch sep c a2 acc (by simpa using hno 0),
      jsSplitAux_final sep hsep a2 (acc ++ [c]) (fun i => by simpa using hno (i + 1))]
    simp

theorem firstOcc_at (sub : List Char) (hsub : sub ≠ []) :
    ∀ (a r : List Char),
    (∀ i, i < a.length → ¬ sub.isPrefixOf ((a ++ (sub ++ r)).drop i) = true) →
    firstOcc sub (a ++ (sub ++ r)) = some a.length
  | [], r, _ => by
    obtain ⟨c, s2, rfl⟩ : ∃ c s2, sub = c :: s2 := by
      cases sub with
      | nil => exact absurd rfl hsub
      | cons c s2 => exact ⟨c, s2, rfl⟩
    have hpre : (c :: s2).isPrefixOf ((c :: s2) ++ r) = true :=
      List.isPrefixOf_iff_prefix.mpr (List.prefix_append _ _)
    show firstOcc (c :: s2) (c :: (s2 ++ r)) = some 0
    simp only [firstOcc]
    rw [if_pos (by simpa using hpre)]
  | c :: a2, r, hno => by
    have h0 : ¬ sub.isPrefixOf (c :: (a2 ++ (sub ++ r))) = true := by
      simpa using hno 0 (by simp)
    rw [List.cons_append]
    simp only [firstOcc]
    rw [if_neg (by simpa using h0),
      firstOcc_at sub hsub a2 r (fun i hi => by
        have := hno (i + 1) (by simpa using Nat.succ_lt_succ hi)
        simpa using this)]
    rfl

theorem firstOcc_isSome (sub : List Char) :
    ∀ (l : List Char) (j : Nat), sub.isPrefixOf (l.drop j) = true →
    (firstOcc sub l).isSome = true
  | [], j, h => by
    simp only [List.drop_nil] at h
    simp [firstOcc, h]
  | c :: t, j, h => by
    by_cases hp : sub.isPrefixOf (c :: t) = true
    · simp [firstOcc, hp]
    · cases j with
      | zero => exact absurd h hp
      | succ j2 =>
        have := firstOcc_isSome sub t j2 (by simpa using h)
        simp only [firstOcc]
        rw [if_neg hp]
        simpa using this

theorem lastOcc_short (sub : List Char) :
    ∀ (l : List Char), l.length < sub.length → lastOcc sub l = none
  | [], h => by
    have hne : sub ≠ [] := by
      intro hs
      rw [hs] at h
      simp at h
    obtain ⟨c, s2, rfl⟩ : ∃ c s2, sub = c :: s2 := by
      cases sub with
      | nil => exact absurd rfl hne
      | cons c s2 => exact ⟨c, s2, rfl⟩
    simp [lastOcc, List.isPrefixOf]
  | c :: t, h => by
    have ht := lastOcc_short sub t (by simp at h; omega)
    have hp : ¬ sub.isPrefixOf (c :: t) = true := by
      intro hpre
      have := isPrefixOf_length_le hpre
      omega
    simp only [lastOcc, ht]
    rw [if_neg hp]

theorem lastOcc_append (sub : List Char) (hsub : sub ≠ []) :
    ∀ (y : List Char), lastOcc sub (y ++ sub) = some y.length
  | [] => by
    obtain ⟨c, s2, rfl⟩ : ∃ c s2, sub = c :: s2 := by
      cases sub with
      | nil => exact absurd rfl hsub
      | cons c s2 => exact ⟨c, s2, rfl⟩
    have hshort : lastOcc (c :: s2) s2 = none := lastOcc_short _ _ (by simp)
    have hpre : (c :: s2).isPrefixOf (c :: s2) = true :=
      List.isPrefixOf_iff_prefix.mpr (List.prefix_refl _)
    simp [lastOcc, hshort, hpre]
  | c :: y2 => by
    have ih := lastOcc_append sub hsub y2
    simp only [List.cons_append, lastOcc, List.append_eq]
    rw [ih]
    simp

theorem takeWhile_append_stop (p : Char → Bool) (x y : List Char)
    (h : (x.takeWhile p).length < x.length) :
    (x ++ y).takeWhile p = x.takeWhile p := by
  rw [List.takeWhile_append, if_neg (by omega)]


theorem regexNameCapture_at : ∀ (j : Nat) (s cap : List Char),
    namePat.isPrefixOf (s.drop j) = true →
    (s.drop (j + 6)).takeWhile (fun d => d ≠ '"') = cap →
    cap ≠ [] →
    ((s.drop (j + 6)).drop cap.length).head? = some '"' →
    (∀ i, i < j → ¬ namePat.isPrefixOf (s.drop i) = true) →
    regexNameCapture s = some cap
  | 0, s, cap, hj, hcap, hne, hq, _ => by
    simp only [List.drop_zero] at hj
    obtain ⟨c, t, rfl⟩ : ∃ c t, s = c :: t := by
      cases s with
      | nil => simp [namePat, List.isPrefixOf] at hj
      | cons c t => exact ⟨c, t, rfl⟩
    have hcap2 : (t.drop 5).takeWhile (fun d => d ≠ '"') = cap := hcap
    have hq2 : ((t.drop 5).drop cap.length).head? = some '"' := hq
    simp only [regexNameCapture]
    rw [if_pos (by simpa using hj)]
    show (if ((t.drop 5).takeWhile (fun d => d ≠ '"')) ≠ [] ∧
        ((t.drop 5).drop ((t.drop 5).takeWhile (fun d => d ≠ '"')).length).head? = some '"' then
        some ((t.drop 5).takeWhile (fun d => d ≠ '"'))
      else regexNameCapture t) = some cap
    rw [hcap2]
    rw [if_pos ⟨hne, hq2⟩]
  | j + 1, s, cap, hj, hcap, hne, hq, hbef => by
    obtain ⟨c, t, rfl⟩ : ∃ c t, s = c :: t := by
      cases s with
      | nil =>
        rw [List.drop_nil] at hj
        simp [namePat, List.isPrefixOf] at hj
      | cons c t => exact ⟨c, t, rfl⟩
    simp only [regexNameCapture]
    rw [if_neg (by simpa using hbef 0 (Nat.succ_pos j))]
    exact regexNameCapture_at j t cap (by simpa using hj) (by simpa using hcap) hne
      (by simpa using hq) (fun i hi => by simpa using hbef (i + 1) (Nat.succ_lt_succ hi))


theorem jsSubstring_exact (x y z : List Char) (a b : Int)
    (ha : a = (x.length : Int)) (hb : b = ((x.length + y.length : Nat) : Int)) :
    jsSubstring ⟨x ++ (y ++ z)⟩ a b = ⟨y⟩ := by
  unfold jsSubstring
  apply congrArg String.mk
  have hlen : (String.mk (x ++ (y ++ z))).data.length = x.length + (y.length + z.length) := by
    simp
  have hmaxa : max a 0 = a := by
    rw [ha]; exact max_eq_left (Int.natCast_nonneg _)
  have hmaxb : max b 0 = b := by
    rw [hb]; exact max_eq_left (Int.natCast_nonneg _)
  rw [hmaxa, hmaxb, ha, hb, Int.toNat_natCast, Int.toNat_natCast]
  have h1 : min x.length (String.mk (x ++ (y ++ z))).data.length = x.length := by
    rw [hlen]; omega
  have h2 : min (x.length + y.length) (String.mk (x ++ (y ++ z))).data.length =
      x.length + y.length := by
    rw [hlen]; omega
  rw [h1, h2]
  have h3 : min x.length (x.length + y.length) = x.length := by omega
  have h4 : max x.length (x.length + y.length) = x.length + y.length := by omega
  rw [h3, h4]
  have h5 : (String.mk (x ++ (y ++ z))).data = x ++ (y ++ z) := rfl
  rw [h5, List.drop_left]
  have h6 : x.length + y.length - x.length = y.length := by omega
  rw [h6, List.take_left]

theorem no_occurrence_concrete (sub x z : List Char) (bound : Nat)
    (hb : bound + sub.length ≤ x.length)
    (hconc : ∀ i, i < bound → ¬ sub.isPrefixOf (x.drop i) = true) :
    ∀ i, i < bound → ¬ sub.isPrefixOf ((x ++ z).drop i) = true := by
  intro i hi h
  apply hconc i hi
  rw [List.drop_append_of_le_length (by omega)] at h
  rw [isPrefixOf_append_left_iff _ _ _ (by rw [List.length_drop]; omega)] at h
  exact h

theorem no_occ_chunk (sub a r : List Char)
    (hconc : ∀ i, i < a.length → ¬ sub.isPrefixOf ((a ++ sub).drop i) = true) :
    ∀ i, i < a.length → ¬ sub.isPrefixOf ((a ++ (sub ++ r)).drop i) = true := by
  intro i hi
  rw [← List.append_assoc]
  exact no_occurrence_concrete sub (a ++ sub) r a.length (by simp) hconc i hi

theorem isPrefixOf_concrete (sub x z : List Char) (j : Nat)
    (hj : j + sub.length ≤ x.length) (hx : sub.isPrefixOf (x.drop j) = true) :
    sub.isPrefixOf ((x ++ z).drop j) = true := by
  rw [List.drop_append_of_le_length (by omega),
    isPrefixOf_append_left_iff _ _ _ (by rw [List.length_drop]; omega)]
  exact hx

theorem takeWhile_concrete (p : Char → Bool) (x z : List Char) (j : Nat) (cap : List Char)
    (hj : j ≤ x.length)
    (hstop : ((x.drop j).takeWhile p).length < (x.drop j).length)
    (hcap : (x.drop j).takeWhile p = cap) :
    ((x ++ z).drop j).takeWhile p = cap := by
  rw [List.drop_append_of_le_length hj, takeWhile_append_stop _ _ _ hstop, hcap]

theorem head?_drop_drop_concrete (x z : List Char) (a b : Nat) (c : Char)
    (ha : a ≤ x.length) (hb : b < (x.drop a).length)
    (hc : ((x.drop a).drop b).head? = some c) :
    (((x ++ z).drop a).drop b).head? = some c := by
  rw [List.drop_append_of_le_length ha, List.drop_append_of_le_length (by omega),
    List.head?_append_of_ne_nil _ ?hne]
  · exact hc
  case hne =>
    intro hnil
    rw [List.drop_eq_nil_iff_le] at hnil
    omega

theorem parseMultipartPart_name (m : List (String × String)) (v : String) (hv : goodValue v) :
    parseMultipartPart m
      ⟨("\r\nContent-Disposition: form-data; name=\"name\"" : String).data ++
        (("\r\n\r\n" : String).data ++ (v.data ++ ("\r\n" : String).data))⟩ =
    objSet m "name" (jsTrim v) := by
  have hvlen : 0 < v.data.length := List.length_pos.mpr hv.1
  have hinc : jsIncludes
      ⟨("\r\nContent-Disposition: form-data; name=\"name\"" : String).data ++
        (("\r\n\r\n" : String).data ++ (v.data ++ ("\r\n" : String).data))⟩
      "Content-Disposition: form-data" = true := by
    show (firstOcc ("Content-Disposition: form-data" : String).data
      (("\r\nContent-Disposition: form-data; name=\"name\"" : String).data ++
        (("\r\n\r\n" : String).data ++ (v.data ++ ("\r\n" : String).data)))).isSome = true
    apply firstOcc_isSome _ _ 2
    exact isPrefixOf_concrete _ _ _ 2 (by decide) (by decide)
  have hreg : regexNameCapture
      (("\r\nContent-Disposition: form-data; name=\"name\"" : String).data ++
        (("\r\n\r\n" : String).data ++ (v.data ++ ("\r\n" : String).data))) =
      some ("name" : String).data := by
    apply regexNameCapture_at 34
    · exact isPrefixOf_concrete _ _ _ 34 (by decide) (by decide)
    · exact takeWhile_concrete _ _ _ (34 + 6) _ (by decide) (by decide) (by decide)
    · decide
    · exact head?_drop_drop_concrete _ _ (34 + 6) _ _ (by decide) (by decide) (by decide)
    · exact no_occurrence_concrete _ _ _ 34 (by decide) (by decide)
  have hidx : jsIndexOf
      ⟨("\r\nContent-Disposition: form-data; name=\"name\"" : String).data ++
        (("\r\n\r\n" : String).data ++ (v.data ++ ("\r\n" : String).data))⟩
      "\r\n\r\n" = (45 : Int) := by
    show (match firstOcc ("\r\n\r\n" : String).data
      (("\r\nContent-Disposition: form-data; name=\"name\"" : String).data ++
        (("\r\n\r\n" : String).data ++ (v.data ++ ("\r\n" : String).data))) with
      | some i => (i : Int) | none => -1) = (45 : Int)
    rw [firstOcc_at ("\r\n\r\n" : String).data (by decide)
      ("\r\nContent-Disposition: form-data; name=\"name\"" : String).data
      (v.data ++ ("\r\n" : String).data)
      (no_occ_chunk _ _ _ (by decide))]
    decide
  have hlast : jsLastIndexOf
      ⟨("\r\nContent-Disposition: form-data; name=\"name\"" : String).data ++
        (("\r\n\r\n" : String).data ++ (v.data ++ ("\r\n" : String).data))⟩
      "\r\n" = ((((("\r\nContent-Disposition: form-data; name=\"name\"" : String).data ++
        ("\r\n\r\n" : String).data) ++ v.data).length : Nat) : Int) := by
    show (match lastOcc ("\r\n" : String).data
      (("\r\nContent-Disposition: form-data; name=\"name\"" : String).data ++
        (("\r\n\r\n" : String).data ++ (v.data ++ ("\r\n" : String).data))) with
      | some i => (i : Int) | none => -1) = _
    rw [show (("\r\nContent-Disposition: form-data; name=\"name\"" : String).data ++
        (("\r\n\r\n" : String).data ++ (v.data ++ ("\r\n" : String).data))) =
      (((("\r\nContent-Disposition: form-data; name=\"name\"" : String).data ++
        ("\r\n\r\n" : String).data) ++ v.data) ++ ("\r\n" : String).data) from by
      simp [List.append_assoc]]
    rw [lastOcc_append _ (by decide)]
  have hYlen : ((("\r\nContent-Disposition: form-data; name=\"name\"" : String).data ++
      ("\r\n\r\n" : String).data) ++ v.data).length = 49 + v.data.length := by
    simp
    omega
  unfold parseMultipartPart
  rw [if_pos hinc]
  have hdata : (⟨("\r\nContent-Disposition: form-data; name=\"name\"" : String).data ++
      (("\r\n\r\n" : String).data ++ (v.data ++ ("\r\n" : String).data))⟩ : String).data =
      ("\r\nContent-Disposition: form-data; name=\"name\"" : String).data ++
      (("\r\n\r\n" : String).data ++ (v.data ++ ("\r\n" : String).data)) := rfl
  rw [hdata, hreg]
  simp only [hidx, hlast]
  rw [if_pos (by
    rw [hYlen]
    push_cast
    omega)]
  rw [show (⟨("\r\nContent-Disposition: form-data; name=\"name\"" : String).data ++
      (("\r\n\r\n" : String).data ++ (v.data ++ ("\r\n" : String).data))⟩ : String) =
    ⟨(("\r\nContent-Disposition: form-data; name=\"name\"" : String).data ++
      ("\r\n\r\n" : String).data) ++ (v.data ++ ("\r\n" : String).data)⟩ from
    string_ext (by simp [List.append_assoc])]
  have h49 : ((("\r\nContent-Disposition: form-data; name=\"name\"" : String).data ++
      ("\r\n\r\n" : String).data)).length = 49 := by simp
  rw [jsSubstring_exact _ _ _ _ _ (by rw [h49]; decide)
    (congrArg Nat.cast (List.length_append _ _))]


theorem parseMultipartPart_email (m : List (String × String)) (v : String) (hv : goodValue v) :
    parseMultipartPart m
      ⟨("\r\nContent-Disposition: form-data; name=\"email\"" : String).data ++
        (("\r\n\r\n" : String).data ++ (v.data ++ ("\r\n" : String).data))⟩ =
    objSet m "email" (jsTrim v) := by
  have hvlen : 0 < v.data.length := List.length_pos.mpr hv.1
  have hinc : jsIncludes
      ⟨("\r\nContent-Disposition: form-data; name=\"email\"" : String).data ++
        (("\r\n\r\n" : String).data ++ (v.data ++ ("\r\n" : String).data))⟩
      "Content-Disposition: form-data" = true := by
    show (firstOcc ("Content-Disposition: form-data" : String).data
      (("\r\nContent-Disposition: form-data; name=\"email\"" : String).data ++
        (("\r\n\r\n" : String).data ++ (v.data ++ ("\r\n" : String).data)))).isSome = true
    apply firstOcc_isSome _ _ 2
    exact isPrefixOf_concrete _ _ _ 2 (by decide) (by decide)
  have hreg : regexNameCapture
      (("\r\nContent-Disposition: form-data; name=\"email\"" : String).data ++
        (("\r\n\r\n" : String).data ++ (v.data ++ ("\r\n" : String).data))) =
      some ("email" : String).data := by
    apply regexNameCapture_at 34
    · exact isPrefixOf_concrete _ _ _ 34 (by decide) (by decide)
    · exact takeWhile_concrete _ _ _ (34 + 6) _ (by decide) (by decide) (by decide)
    · decide
    · exact head?_drop_drop_concrete _ _ (34 + 6) _ _ (by decide) (by decide) (by decide)
    · exact no_occurrence_concrete _ _ _ 34 (by decide) (by decide)
  have hidx : jsIndexOf
      ⟨("\r\nContent-Disposition: form-data; name=\"email\"" : String).data ++
        (("\r\n\r\n" : String).data ++ (v.data ++ ("\r\n" : String).data))⟩
      "\r\n\r\n" = (46 : Int) := by
    show (match firstOcc ("\r\n\r\n" : String).data
      (("\r\nContent-Disposition: form-data; name=\"email\"" : String).data ++
        (("\r\n\r\n" : String).data ++ (v.data ++ ("\r\n" : String).data))) with
      | some i => (i : Int) | none => -1) = (46 : Int)
    rw [firstOcc_at ("\r\n\r\n" : String).data (by decide)
      ("\r\nContent-Disposition: form-data; name=\"email\"" : String).data
      (v.data ++ ("\r\n" : String).data)
      (no_occ_chunk _ _ _ (by decide))]
    decide
  have hlast : jsLastIndexOf
      ⟨("\r\nContent-Disposition: form-data; name=\"email\"" : String).data ++
        (("\r\n\r\n" : String).data ++ (v.data ++ ("\r\n" : String).data))⟩
      "\r\n" = ((((("\r\nContent-Disposition: form-data; name=\"email\"" : String).data ++
        ("\r\n\r\n" : String).data) ++ v.data).length : Nat) : Int) := by
    show (match lastOcc ("\r\n" : String).data
      (("\r\nContent-Disposition: form-data; name=\"email\"" : String).data ++
        (("\r\n\r\n" : String).data ++ (v.data ++ ("\r\n" : String).data))) with
      | some i => (i : Int) | none => -1) = _
    rw [show (("\r\nContent-Disposition: form-data; name=\"email\"" : String).data ++
        (("\r\n\r\n" : String).data ++ (v.data ++ ("\r\n" : String).data))) =
      (((("\r\nContent-Disposition: form-data; name=\"email\"" : String).data ++
        ("\r\n\r\n" : String).data) ++ v.data) ++ ("\r\n" : String).data) from by
      simp [List.append_assoc]]
    rw [lastOcc_append _ (by decide)]
  have hYlen : ((("\r\nContent-Disposition: form-data; name=\"email\"" : String).data ++
      ("\r\n\r\n" : String).data) ++ v.data).length = 50 + v.data.length := by
    simp
    omega
  unfold parseMultipartPart
  rw [if_pos hinc]
  have hdata : (⟨("\r\nContent-Disposition: form-data; name=\"email\"" : String).data ++
      (("\r\n\r\n" : String).data ++ (v.data ++ ("\r\n" : String).data))⟩ : String).data =
      ("\r\nContent-Disposition: form-data; name=\"email\"" : String).data ++
      (("\r\n\r\n" : String).data ++ (v.data ++ ("\r\n" : String).data)) := rfl
  rw [hdata, hreg]
  simp only [hidx, hlast]
  rw [if_pos (by
    rw [hYlen]
    push_cast
    omega)]
  rw [show (⟨("\r\nContent-Disposition: form-data; name=\"email\"" : String).data ++
      (("\r\n\r\n" : String).data ++ (v.data ++ ("\r\n" : String).data))⟩ : String) =
    ⟨(("\r\nContent-Disposition: form-data; name=\"email\"" : String).data ++
      ("\r\n\r\n" : String).data) ++ (v.data ++ ("\r\n" : String).data)⟩ from
    string_ext (by simp [List.append_assoc])]
  have h50 : ((("\r\nContent-Disposition: form-data; name=\"email\"" : String).data ++
      ("\r\n\r\n" : String).data)).length = 50 := by simp
  rw [jsSubstring_exact _ _ _ _ _ (by rw [h50]; decide)
    (congrArg Nat.cast (List.length_append _ _))]

theorem parseMultipartPart_skip (m : List (String × String)) (s : String)
    (h : jsIncludes s "Content-Disposition: form-data" = false) :
    parseMultipartPart m s = m := by
  unfold parseMultipartPart
  rw [if_neg (by simp [h])]


theorem hasDD_part (lit v : List Char) (hlit : hasDD lit = false)
    (hlitlast : lit.getLast? ≠ some '-') (hv : ∀ c ∈ v, c ≠ '-') :
    hasDD (lit ++ (("\r\n\r\n" : String).data ++ (v ++ ("\r\n" : String).data))) = false := by
  apply hasDD_append _ _ hlit
  · apply hasDD_append
    · decide
    · apply hasDD_append _ _ (hasDD_no_dash v hv) (by decide)
      intro hl hh
      rw [show (("\r\n" : String).data).head? = some '\r' from by decide] at hh
      simp at hh
    · intro hl
      rw [show ((("\r\n\r\n" : String).data)).getLast? = some '\n' from by decide] at hl
      simp at hl
  · intro hl
    exact absurd hl hlitlast

theorem getLast_part (lit v : List Char) :
    (lit ++ (("\r\n\r\n" : String).data ++ (v ++ ("\r\n" : String).data))).getLast? =
      some '\n' := by
  rw [List.getLast?_append, List.getLast?_append, List.getLast?_append]
  rfl

theorem multipart_split (b v1 v2 : String) (hb : goodBoundary b)
    (h1 : goodValue v1) (h2 : goodValue v2) :
    jsSplit (multipartTwoPartBody b v1 v2) ("--" ++ b) =
      ["", ⟨("\r\nContent-Disposition: form-data; name=\"name\"" : String).data ++
        (("\r\n\r\n" : String).data ++ (v1.data ++ ("\r\n" : String).data))⟩,
       ⟨("\r\nContent-Disposition: form-data; name=\"email\"" : String).data ++
        (("\r\n\r\n" : String).data ++ (v2.data ++ ("\r\n" : String).data))⟩, "--"] := by
  have hbpos : 0 < b.data.length := List.length_pos.mpr hb.1
  have hsepdata : ("--" ++ b).data = '-' :: '-' :: b.data := by
    rw [String.data_append]
    rfl
  have hbody : (multipartTwoPartBody b v1 v2).data =
      ('-' :: '-' :: b.data) ++
        ((("\r\nContent-Disposition: form-data; name=\"name\"" : String).data ++
          (("\r\n\r\n" : String).data ++ (v1.data ++ ("\r\n" : String).data))) ++
        (('-' :: '-' :: b.data) ++
          ((("\r\nContent-Disposition: form-data; name=\"email\"" : String).data ++
            (("\r\n\r\n" : String).data ++ (v2.data ++ ("\r\n" : String).data))) ++
          (('-' :: '-' :: b.data) ++ ['-', '-'])))) := by
    unfold multipartTwoPartBody
    have e1 : ("\r\nContent-Disposition: form-data; name=\"name\"\r\n\r\n" : String).data =
        ("\r\nContent-Disposition: form-data; name=\"name\"" : String).data ++
          ("\r\n\r\n" : String).data := by decide
    have e2 : ("\r\nContent-Disposition: form-data; name=\"email\"\r\n\r\n" : String).data =
        ("\r\nContent-Disposition: form-data; name=\"email\"" : String).data ++
          ("\r\n\r\n" : String).data := by decide
    have e3 : ("\r\n--" : String).data = ("\r\n" : String).data ++ ['-', '-'] := by decide
    simp [String.data_append, e1, e2, e3, List.append_assoc]
  unfold jsSplit
  rw [if_neg (by rw [hsepdata]; simp)]
  rw [hsepdata, hbody]
  rw [jsSplitAux_match _ _ _ (by simp)]
  rw [jsSplitAux_chunk ('-' :: '-' :: b.data) (by simp) _ _ []
    (no_sep_occurrence b.data _ _
      (hasDD_part _ v1.data (by decide) (by decide) h1.2)
      (by rw [getLast_part]; simp))]
  rw [jsSplitAux_chunk ('-' :: '-' :: b.data) (by simp) _ _ []
    (no_sep_occurrence b.data _ _
      (hasDD_part _ v2.data (by decide) (by decide) h2.2)
      (by rw [getLast_part]; simp))]
  rw [jsSplitAux_final ('-' :: '-' :: b.data) (by simp) ['-', '-'] []
    (by
      intro i h
      have hlen := isPrefixOf_length_le h
      have hdl : (List.drop i ['-', '-']).length ≤ 2 := by
        rw [List.length_drop]
        simp
      simp only [List.length_cons] at hlen
      omega)]
  simp


theorem parseMultipartFormData_two (b v1 v2 : String) (hb : goodBoundary b)
    (h1 : goodValue v1) (h2 : goodValue v2) :
    parseMultipartFormData (multipartTwoPartBody b v1 v2) b =
      [("name", jsTrim v1), ("email", jsTrim v2)] := by
  unfold parseMultipartFormData
  rw [multipart_split b v1 v2 hb h1 h2]
  simp only [List.foldl]
  rw [parseMultipartPart_skip [] "" (by decide)]
  rw [parseMultipartPart_name [] v1 h1]
  rw [parseMultipartPart_email _ v2 h2]
  rw [parseMultipartPart_skip _ "--" (by decide)]
  simp [objSet]

theorem boundary_extraction (b : String) (hb : goodBoundary b) :
    jsSplit ("multipart/form-data; boundary=" ++ b) "boundary=" =
      ["multipart/form-data; ", b] := by
  have hdata : ("multipart/form-data; boundary=" ++ b).data =
      ("multipart/form-data; " : String).data ++
        (("boundary=" : String).data ++ b.data) := by
    have e1 : ("multipart/form-data; boundary=" : String).data =
        ("multipart/form-data; " : String).data ++ ("boundary=" : String).data := by decide
    simp [String.data_append, e1, List.append_assoc]
  unfold jsSplit
  rw [if_neg (by decide)]
  rw [hdata]
  rw [jsSplitAux_chunk ("boundary=" : String).data (by decide) _ _ []
    (no_occ_chunk _ _ _ (by decide))]
  rw [jsSplitAux_final ("boundary=" : String).data (by decide) b.data []
    (by
      intro i h
      have hmem : '=' ∈ b.data :=
        List.drop_subset i b.data
          ((List.isPrefixOf_iff_prefix.mp h).sublist.subset (by decide))
      exact (hb.2 '=' hmem).2 rfl)]
  show ["multipart/form-data; ", ⟨b.data⟩] = _
  rfl

/-- C5 (amended): for every boundary free of hyphens and equals signs and
every pair of non-empty hyphen-free part values, the multipart parser applied
to the well-formed two-part body binds `name` and `email` to their part's
trimmed text value, and the boundary parameter is extracted verbatim from the
content-type header.  (The original claim over arbitrary such bodies fails
when a part's value is empty: see the counterexample.) -/
theorem multipart_two_fields (b v1 v2 : String) (hb : goodBoundary b)
    (h1 : goodValue v1) (h2 : goodValue v2) :
    objGet (parseMultipartFormData (multipartTwoPartBody b v1 v2) b) "name" =
      some (jsTrim v1) ∧
    objGet (parseMultipartFormData (multipartTwoPartBody b v1 v2) b) "email" =
      some (jsTrim v2) ∧
    jsSplit ("multipart/form-data; boundary=" ++ b) "boundary=" =
      ["multipart/form-data; ", b] := by
  rw [parseMultipartFormData_two b v1 v2 hb h1 h2]
  refine ⟨?_, ?_, boundary_extraction b hb⟩ <;> simp [objGet]

/-- Witness for the amended C5 at boundary `X` and values `Jo`, `jo@x.com`. -/
theorem multipart_two_fields_witness :
    objGet (parseMultipartFormData (multipartTwoPartBody "X" "Jo" "jo@x.com") "X") "name" =
      some (jsTrim "Jo") ∧
    objGet (parseMultipartFormData (multipartTwoPartBody "X" "Jo" "jo@x.com") "X") "email" =
      some (jsTrim "jo@x.com") :=
  ⟨(multipart_two_fields "X" "Jo" "jo@x.com" (by constructor <;> decide)
      (by constructor <;> decide) (by constructor <;> decide)).1,
   (multipart_two_fields "X" "Jo" "jo@x.com" (by constructor <;> decide)
      (by constructor <;> decide) (by constructor <;> decide)).2.1⟩

/-- Counterexample to C5 as stated: in the well-formed two-part body whose
`name` part carries the empty text value (whose trimmed form the claim says
gets bound), the parser leaves `name` unbound and binds only `email`. -/
theorem multipart_empty_value_unbound :
    objGet (parseMultipartFormData (multipartTwoPartBody "X" "" "jo@x.com") "X") "name" =
      none ∧
    parseMultipartFormData (multipartTwoPartBody "X" "" "jo@x.com") "X" =
      [("email", "jo@x.com")] := by
  constructor <;> decide

end StarHealth
